import Mathlib

/-!
Verification of `opennb.py`: a tool that resolves a notebook reference
(direct URL or GitHub `owner/repo[@branch][#path]` shorthand) into a
raw-content URL, downloads the file, and launches a viewer process.

Strings are modelled as `List Char`.  Python's string operations used by the
source (`split(sep, 1)`, `split(sep)`, `strip(c)`, `endswith`, `in`) are
embedded below as executable functions on `List Char`.  The two network
effects (`_get_default_branch`'s metadata GET and the download) are modelled
by an injected `fetch` oracle and by an explicit event trace; the number of
metadata-lookup calls is threaded through the resolver as a `Nat`.
-/

/-- Outcome of the metadata GET performed by `_get_default_branch`:
either a JSON body whose `default_branch` field is the given string,
or an `urllib.error.HTTPError` with the given status code. -/
inductive HttpResponse where
  | success (defaultBranch : List Char)
  | httpError (code : Nat)
deriving DecidableEq

/-- Errors surfaced by the embedded code: `ValueError msg` or a re-raised
`HTTPError code`. -/
inductive Err where
  | valueError (msg : List Char)
  | httpError (code : Nat)
deriving DecidableEq

/-- Effects performed by `open_notebook_from_url` after resolution:
`urllib.request.urlretrieve(url, output_path)` and
`subprocess.run(cmd, check=True)`. -/
inductive Event where
  | download (url : List Char) (target : List Char)
  | spawn (cmd : List (List Char))
deriving DecidableEq

/-- Python `s.split(c, 1)` for a one-character separator: the part before the
first occurrence of `c`, and, when `c` occurs, the whole rest after it. -/
def pySplitFirst (l : List Char) (c : Char) : List Char × Option (List Char) :=
  match l with
  | [] => ([], none)
  | x :: xs =>
    if x = c then ([], some xs)
    else
      let r := pySplitFirst xs c
      (x :: r.1, r.2)

/-- Python `s.split(c)` for a one-character separator: splits at every
occurrence, keeping empty pieces; `"".split(c) = [""]`. -/
def pySplitAll (l : List Char) (c : Char) : List (List Char) :=
  match l with
  | [] => [[]]
  | x :: xs =>
    let r := pySplitAll xs c
    if x = c then [] :: r
    else
      match r with
      | [] => [[x]]
      | y :: ys => (x :: y) :: ys

/-- Python `s.strip(c)` for a one-character argument: removes every leading
and trailing occurrence of `c`. -/
def pyStripChar (l : List Char) (c : Char) : List Char :=
  ((l.dropWhile (fun x => x = c)).reverse.dropWhile (fun x => x = c)).reverse

/-- The f-string of `_convert_github_path_to_raw_url` line 87:
`https://raw.githubusercontent.com/{owner}/{repo}/{branch}/{file_path}`. -/
def rawUrl (owner repo branch file_path : List Char) : List Char :=
  "https://raw.githubusercontent.com/".toList ++
    owner ++ '/' :: repo ++ '/' :: branch ++ '/' :: file_path

/-- Embeds `_get_default_branch(owner, repo)` (opennb.py lines 11-33): on a
successful response return the `default_branch` field; on `HTTPError` with
code 404 raise `ValueError(f"Repository {owner}/{repo} not found")`; re-raise
any other `HTTPError` unchanged. -/
def get_default_branch (fetch : List Char → List Char → HttpResponse)
    (owner repo : List Char) : Except Err (List Char) :=
  match fetch owner repo with
  | .success b => .ok b
  | .httpError code =>
    if code = 404 then
      .error (.valueError
        ("Repository ".toList ++ owner ++ "/".toList ++ repo ++ " not found".toList))
    else
      .error (.httpError code)

/-- Embeds `_convert_github_path_to_raw_url(path)` (opennb.py lines 36-87).
Returns the result together with the number of `_get_default_branch` calls.

Line-by-line correspondence:
* `path.split("#", 1)` with the `parts[1] if len(parts) > 1 else None`
  dance is `pySplitFirst path '#'` (the second component is `none` exactly
  when `#` is absent).
* the `if "@" in repo_part` guard plus `repo_part.split("@", 1)` is
  `pySplitFirst repo_part '@'` (second component `none` exactly when `@`
  is absent, i.e. `branch = None`).
* `repo_info.strip("/").split("/")` with the `len(repo_parts) != 2` check
  is the match on `pySplitAll (pyStripChar repo_info '/') '/'`.
* `branch.split("/", 1)` under the `"/" in branch` guard always yields two
  pieces, hence the `Option.getD` on the second component. -/
def convert_github_path_to_raw_url (fetch : List Char → List Char → HttpResponse)
    (path : List Char) : Except Err (List Char) × Nat :=
  let ps := pySplitFirst path '#'
  let repo_part := ps.1
  let file_path := ps.2
  let bs := pySplitFirst repo_part '@'
  let repo_info := bs.1
  let branchOpt := bs.2
  match pySplitAll (pyStripChar repo_info '/') '/' with
  | [owner, repo] =>
    let br : Except Err (List Char) × Nat :=
      match branchOpt with
      | some b => (.ok b, 0)
      | none => (get_default_branch fetch owner repo, 1)
    match br.1 with
    | .error e => (.error e, br.2)
    | .ok branch =>
      let fr : (List Char × Except Err (List Char)) :=
        match file_path with
        | some fp => (branch, .ok fp)
        | none =>
          if '/' ∈ branch then
            let pr := pySplitFirst branch '/'
            (pr.1, .ok (pr.2.getD []))
          else
            (branch, .error (.valueError "No file path specified".toList))
      match fr.2 with
      | .error e => (.error e, br.2)
      | .ok fp =>
        if ".ipynb".toList.isSuffixOf fp then
          (.ok (rawUrl owner repo fr.1 fp), br.2)
        else
          (.error (.valueError "Path must end with .ipynb".toList), br.2)
  | _ => (.error (.valueError "Repository path must be in format: owner/repository".toList), 0)

/-- The scheme guard of `open_notebook_from_url` line 109:
`url.startswith(("http://", "https://"))`. -/
def startsWithHttp (url : List Char) : Bool :=
  "http://".toList.isPrefixOf url || "https://".toList.isPrefixOf url

/-- The piece of `urllib.parse.urlsplit` relevant to `urlparse(url).path`:
remove the fragment (everything from the first `#`), remove the scheme
(everything up to the first `:`), skip the `//netloc` (up to the next `/` or
`?`), and remove the query (everything from the first `?`).  Faithful for the
URLs this program parses, which all carry an `http`/`https` scheme. -/
def urlsplitPath (url : List Char) : List Char :=
  let noFrag := (pySplitFirst url '#').1
  let afterScheme := ((pySplitFirst noFrag ':').2).getD noFrag
  let pathAndQuery :=
    if "//".toList.isPrefixOf afterScheme then
      (afterScheme.drop 2).dropWhile (fun ch => ch ≠ '/' ∧ ch ≠ '?')
    else afterScheme
  (pySplitFirst pathAndQuery '?').1

/-- `urlparse`'s params split (`_splitparams`, applied since `http`/`https`
are in `uses_params`): when the path contains a `;` in its final
`/`-separated segment, everything from that `;` on is split off as params. -/
def splitparamsPath (p : List Char) : List Char :=
  if ';' ∈ p then
    if '/' ∈ p then
      let seg := (p.reverse.takeWhile (fun ch => ch ≠ '/')).reverse
      if ';' ∈ seg then
        p.take (p.length - seg.length) ++ (pySplitFirst seg ';').1
      else p
    else (pySplitFirst p ';').1
  else p

/-- `urlparse(url).path` for a URL with an `http`/`https` scheme. -/
def urlparsePath (url : List Char) : List Char :=
  splitparamsPath (urlsplitPath url)

/-- `pathlib.Path(p).name`: the last `/`-separated component of `p`, after
dropping empty and `.` components; `""` when no component remains. -/
def pathName (p : List Char) : List Char :=
  (((pySplitAll p '/').filter (fun s => s ≠ [] ∧ s ≠ ['.'])).getLast?).getD []

/-- The final `/`-separated segment of a string: everything after the last
`/` (the whole string when it has no `/`).  Used to state what the tail of a
resolver-produced URL looks like. -/
def lastSlashSegment (l : List Char) : List Char :=
  (l.reverse.takeWhile (fun ch => ch ≠ '/')).reverse

/-- Embeds `open_notebook_from_url(url, output_dir, jupyter_args)`
(opennb.py lines 90-132), returning the event trace (one download, one
viewer spawn) or the error, together with the number of
`_get_default_branch` calls.

Line-by-line correspondence:
* line 109-110: a reference without an `http://`/`https://` scheme prefix is
  resolved through `_convert_github_path_to_raw_url`;
* line 113: `filename = Path(urlparse(url).path).name`;
* line 114-115: the `.ipynb` suffix check on the filename;
* line 118-119: `output_dir = output_dir or Path.cwd()`,
  `output_path = output_dir / filename` (modelled as joining with `/` for a
  directory path without a trailing slash);
* line 123: the download of `url` to `output_path`;
* lines 126-132: `cmd = ["jupyter", "notebook", str(output_path)]` extended
  with `jupyter_args`, then spawned once. -/
def open_notebook_from_url (fetch : List Char → List Char → HttpResponse)
    (cwd : List Char) (url : List Char) (output_dir : Option (List Char))
    (jupyter_args : List (List Char)) : Except Err (List Event) × Nat :=
  let r : Except Err (List Char) × Nat :=
    if startsWithHttp url then (.ok url, 0)
    else convert_github_path_to_raw_url fetch url
  match r.1 with
  | .error e => (.error e, r.2)
  | .ok url =>
    let filename := pathName (urlparsePath url)
    if ".ipynb".toList.isSuffixOf filename then
      let dir := output_dir.getD cwd
      let output_path := dir ++ '/' :: filename
      let cmd := "jupyter".toList :: "notebook".toList :: output_path :: jupyter_args
      (.ok [Event.download url output_path, Event.spawn cmd], r.2)
    else
      (.error (.valueError "URL must point to a Jupyter notebook (.ipynb file)".toList), r.2)

/-! ### Facts about the embedded Python string operations -/

theorem pySplitFirst_of_not_mem (l : List Char) (c : Char) (h : c ∉ l) :
    pySplitFirst l c = (l, none) := by
  induction l with
  | nil => rfl
  | cons x xs ih =>
    simp only [List.mem_cons, not_or] at h
    have hx : ¬ x = c := fun hh => h.1 hh.symm
    simp [pySplitFirst, hx, ih h.2]

theorem pySplitFirst_append (a b : List Char) (c : Char) (h : c ∉ a) :
    pySplitFirst (a ++ c :: b) c = (a, some b) := by
  induction a with
  | nil => simp [pySplitFirst]
  | cons x xs ih =>
    simp only [List.mem_cons, not_or] at h
    have hx : ¬ x = c := fun hh => h.1 hh.symm
    simp [pySplitFirst, hx, ih h.2]

theorem pySplitAll_of_not_mem (l : List Char) (c : Char) (h : c ∉ l) :
    pySplitAll l c = [l] := by
  induction l with
  | nil => rfl
  | cons x xs ih =>
    simp only [List.mem_cons, not_or] at h
    have hx : ¬ x = c := fun hh => h.1 hh.symm
    simp [pySplitAll, hx, ih h.2]

theorem pySplitAll_append (a b : List Char) (c : Char) (h : c ∉ a) :
    pySplitAll (a ++ c :: b) c = a :: pySplitAll b c := by
  induction a with
  | nil => simp [pySplitAll]
  | cons x xs ih =>
    simp only [List.mem_cons, not_or] at h
    have hx : ¬ x = c := fun hh => h.1 hh.symm
    have hne : pySplitAll (xs ++ c :: b) c = xs :: pySplitAll b c := ih h.2
    simp [pySplitAll, hx, hne]

theorem pyStripChar_eq_self (l : List Char) (c : Char)
    (h1 : ∀ x, l.head? = some x → x ≠ c) (h2 : ∀ x, l.getLast? = some x → x ≠ c) :
    pyStripChar l c = l := by
  unfold pyStripChar
  have hd : l.dropWhile (fun x => x = c) = l := by
    cases l with
    | nil => rfl
    | cons x xs =>
      have : ¬ (x = c) := h1 x rfl
      simp [List.dropWhile_cons, this]
  rw [hd]
  have hr : l.reverse.dropWhile (fun x => x = c) = l.reverse := by
    cases hrv : l.reverse with
    | nil => rfl
    | cons y ys =>
      have hy : l.reverse.head? = some y := by rw [hrv]; rfl
      rw [List.head?_reverse] at hy
      have : ¬ (y = c) := h2 y hy
      simp [List.dropWhile_cons, this]
  rw [hr, List.reverse_reverse]

/-- `strip("/")` leaves `owner ++ "/" ++ repo` unchanged when `owner` and
`repo` are nonempty and slash-free. -/
theorem pyStripChar_two_seg (owner repo : List Char)
    (h1 : owner ≠ []) (h2 : repo ≠ []) (h3 : '/' ∉ owner) (h4 : '/' ∉ repo) :
    pyStripChar (owner ++ '/' :: repo) '/' = owner ++ '/' :: repo := by
  apply pyStripChar_eq_self
  · intro x hx
    cases owner with
    | nil => exact absurd rfl h1
    | cons o os =>
      simp only [List.cons_append, List.head?_cons, Option.some.injEq] at hx
      subst hx
      exact fun hh => h3 (hh ▸ List.mem_cons_self _ _)
  · intro x hx
    rw [List.getLast?_append] at hx
    cases repo with
    | nil => exact absurd rfl h2
    | cons r rs =>
      rw [List.getLast?_cons_cons] at hx
      cases hgl : (r :: rs).getLast? with
      | none =>
        rw [List.getLast?_eq_none_iff] at hgl
        exact absurd hgl (by simp)
      | some y =>
        rw [hgl] at hx
        simp only [Option.or_some, Option.some.injEq] at hx
        subst hx
        exact fun hh => h4 (hh ▸ List.mem_of_getLast?_eq_some hgl)

/-- The two-component split of `owner ++ "/" ++ repo`. -/
theorem pySplitAll_two_seg (owner repo : List Char)
    (h3 : '/' ∉ owner) (h4 : '/' ∉ repo) :
    pySplitAll (owner ++ '/' :: repo) '/' = [owner, repo] := by
  rw [pySplitAll_append _ _ _ h3, pySplitAll_of_not_mem _ _ h4]

theorem not_mem_append_cons {c d : Char} {a b : List Char}
    (h1 : c ∉ a) (h2 : c ≠ d) (h3 : c ∉ b) : c ∉ a ++ d :: b := by
  intro hm
  rcases List.mem_append.1 hm with h | h
  · exact h1 h
  · rcases List.mem_cons.1 h with h | h
    · exact h2 h
    · exact h3 h

theorem exists_three_cons {α : Type} (L : List α) (h : 2 < L.length) :
    ∃ x y z t, L = x :: y :: z :: t := by
  cases L with
  | nil => simp at h
  | cons x L =>
    cases L with
    | nil => simp at h
    | cons y L =>
      cases L with
      | nil => simp at h
      | cons z t => exact ⟨x, y, z, t, rfl⟩

/-! ### Claims about the path resolver -/

/-- Claim C1: the claim states that for `owner/repo/file.ipynb` shorthand
(no `@`, no `#`) the resolver calls the default-branch lookup exactly once
and returns the raw URL built from the looked-up branch.  The code does the
opposite: `repo_info.strip("/").split("/")` yields more than two components,
so line 69 raises the owner/repository format error with zero lookup calls.
This contradicts the function's own docstring (line 44 lists
`owner/repository/path/to/notebook.ipynb (uses default branch)` as a
supported format) and the repo's test
`test_convert_github_path_to_raw_url`, which expects
`https://raw.githubusercontent.com/owner/repo/main/path/notebook.ipynb`.
This theorem evaluates the embedded code at the failing input. -/
theorem C1_code_rejects_slash_shorthand_without_lookup :
    convert_github_path_to_raw_url (fun _ _ => .success "main".toList)
        "owner/repo/path/notebook.ipynb".toList
      = (.error (.valueError
          "Repository path must be in format: owner/repository".toList), 0) := rfl

/-- Claim C2: an input with no `@` and no `#` whose slash-trimmed form splits
on `/` into more than two segments fails with the owner/repository format
error (zero lookup calls), and the extra segments are never treated as an
implicit file path. -/
theorem C2_extra_segments_format_error
    (fetch : List Char → List Char → HttpResponse) (path : List Char)
    (h1 : '@' ∉ path) (h2 : '#' ∉ path)
    (h3 : 2 < (pySplitAll (pyStripChar path '/') '/').length) :
    convert_github_path_to_raw_url fetch path
      = (.error (.valueError
          "Repository path must be in format: owner/repository".toList), 0) := by
  have e1 := pySplitFirst_of_not_mem path '#' h2
  have e2 := pySplitFirst_of_not_mem path '@' h1
  obtain ⟨x, y, z, t, hL⟩ := exists_three_cons _ h3
  simp only [convert_github_path_to_raw_url, e1, e2, hL]

theorem C2_extra_segments_format_error_witness :
    ('@' ∉ "a/b/c.ipynb".toList ∧ '#' ∉ "a/b/c.ipynb".toList ∧
      2 < (pySplitAll (pyStripChar "a/b/c.ipynb".toList '/') '/').length) ∧
    convert_github_path_to_raw_url (fun _ _ => .success "main".toList)
        "a/b/c.ipynb".toList
      = (.error (.valueError
          "Repository path must be in format: owner/repository".toList), 0) :=
  ⟨⟨by decide, by decide, by decide⟩,
    C2_extra_segments_format_error _ _ (by decide) (by decide) (by decide)⟩

/-- Claim C3: the claim states that `owner/repo` (no `@`, no `#`) fails with
an owner/repository-format error.  The code instead passes the
two-component check, calls `_get_default_branch` (one lookup), and then
fails with `ValueError("No file path specified")` at line 80 (when the
looked-up default branch contains no `/`).  The repo's own test expects a
format-style error message (`Path must be in format:
owner/repository/path/to/notebook.ipynb`), which the code never produces.
This theorem evaluates the embedded code at the failing input, recording
the single lookup call and the actual error. -/
theorem C3_owner_repo_calls_lookup_then_no_file_path_error :
    convert_github_path_to_raw_url (fun _ _ => .success "main".toList)
        "owner/repo".toList
      = (.error (.valueError "No file path specified".toList), 1) := rfl

/-- Claim C4: for `owner/repo@branch#path` ending in `.ipynb` the resolver
returns `https://raw.githubusercontent.com/owner/repo/branch/path` with
exactly the given branch and path, with zero default-branch lookups, even
when the branch (or the path) contains internal `/` or further `@`/`#`
characters: the `#` and `@` splits use only the first occurrence. -/
theorem C4_explicit_branch_and_path_exact_url_no_lookup
    (fetch : List Char → List Char → HttpResponse)
    (owner repo branch fp : List Char)
    (hO : owner ≠ []) (hR : repo ≠ [])
    (hOs : '/' ∉ owner) (hRs : '/' ∉ repo)
    (hOa : '@' ∉ owner) (hRa : '@' ∉ repo)
    (hOh : '#' ∉ owner) (hRh : '#' ∉ repo) (hBh : '#' ∉ branch)
    (hfp : ".ipynb".toList.isSuffixOf fp = true) :
    convert_github_path_to_raw_url fetch
        (owner ++ '/' :: repo ++ '@' :: branch ++ '#' :: fp)
      = (.ok (rawUrl owner repo branch fp), 0) := by
  have h1 : '#' ∉ owner ++ '/' :: repo ++ '@' :: branch :=
    not_mem_append_cons (not_mem_append_cons hOh (by decide) hRh) (by decide) hBh
  have e1 := pySplitFirst_append (owner ++ '/' :: repo ++ '@' :: branch) fp '#' h1
  have h2 : '@' ∉ owner ++ '/' :: repo :=
    not_mem_append_cons hOa (by decide) hRa
  have e2 := pySplitFirst_append (owner ++ '/' :: repo) branch '@' h2
  have e3 := pyStripChar_two_seg owner repo hO hR hOs hRs
  have e4 := pySplitAll_two_seg owner repo hOs hRs
  have hfp' : ['.', 'i', 'p', 'y', 'n', 'b'] <:+ fp := by simpa using hfp
  simp only [convert_github_path_to_raw_url, e1, e2, e3, e4]
  simp [hfp']

theorem C4_explicit_branch_and_path_exact_url_no_lookup_witness :
    convert_github_path_to_raw_url (fun _ _ => .httpError 500)
        ("owner".toList ++ '/' :: "repo".toList ++ '@' :: "feature/branch".toList
          ++ '#' :: "path/notebook.ipynb".toList)
      = (.ok (rawUrl "owner".toList "repo".toList "feature/branch".toList
          "path/notebook.ipynb".toList), 0) :=
  C4_explicit_branch_and_path_exact_url_no_lookup _ _ _ _ _
    (by decide) (by decide) (by decide) (by decide) (by decide)
    (by decide) (by decide) (by decide) (by decide) (by decide)

/-- Claim C5: with an explicit `@branch` part, no `#`, and at least one `/`
in the branch string, the resolver takes everything before the first `/` as
the branch and everything after it as the file path, and (when that path
ends in `.ipynb`) builds the URL from those two pieces, with zero lookups. -/
theorem C5_branch_slash_fallback_split
    (fetch : List Char → List Char → HttpResponse)
    (owner repo b p : List Char)
    (hO : owner ≠ []) (hR : repo ≠ [])
    (hOs : '/' ∉ owner) (hRs : '/' ∉ repo)
    (hOa : '@' ∉ owner) (hRa : '@' ∉ repo)
    (hOh : '#' ∉ owner) (hRh : '#' ∉ repo) (hBh : '#' ∉ b) (hPh : '#' ∉ p)
    (hBs : '/' ∉ b)
    (hfp : ".ipynb".toList.isSuffixOf p = true) :
    convert_github_path_to_raw_url fetch
        (owner ++ '/' :: repo ++ '@' :: (b ++ '/' :: p))
      = (.ok (rawUrl owner repo b p), 0) := by
  have h1 : '#' ∉ owner ++ '/' :: repo ++ '@' :: (b ++ '/' :: p) :=
    not_mem_append_cons (not_mem_append_cons hOh (by decide) hRh) (by decide)
      (not_mem_append_cons hBh (by decide) hPh)
  have e1 := pySplitFirst_of_not_mem _ '#' h1
  have h2 : '@' ∉ owner ++ '/' :: repo := not_mem_append_cons hOa (by decide) hRa
  have e2 := pySplitFirst_append (owner ++ '/' :: repo) (b ++ '/' :: p) '@' h2
  have e3 := pyStripChar_two_seg owner repo hO hR hOs hRs
  have e4 := pySplitAll_two_seg owner repo hOs hRs
  have hm : '/' ∈ b ++ '/' :: p := by simp
  have e5 := pySplitFirst_append b p '/' hBs
  have hfp' : ['.', 'i', 'p', 'y', 'n', 'b'] <:+ p := by simpa using hfp
  simp only [convert_github_path_to_raw_url, e1, e2, e3, e4]
  simp [hm, e5, hfp']

theorem C5_branch_slash_fallback_split_witness :
    convert_github_path_to_raw_url (fun _ _ => .httpError 500)
        ("owner".toList ++ '/' :: "repo".toList ++ '@'
          :: ("main".toList ++ '/' :: "nb.ipynb".toList))
      = (.ok (rawUrl "owner".toList "repo".toList "main".toList "nb.ipynb".toList), 0) :=
  C5_branch_slash_fallback_split _ _ _ _ _
    (by decide) (by decide) (by decide) (by decide) (by decide) (by decide)
    (by decide) (by decide) (by decide) (by decide) (by decide) (by decide)

/-- Claim C6: `owner/repo@branch` with no `#` and no `/` in the branch
string fails with the "No file path specified" error; no URL is produced
and no lookup happens. -/
theorem C6_branch_without_file_path_fails
    (fetch : List Char → List Char → HttpResponse)
    (owner repo b : List Char)
    (hO : owner ≠ []) (hR : repo ≠ [])
    (hOs : '/' ∉ owner) (hRs : '/' ∉ repo)
    (hOa : '@' ∉ owner) (hRa : '@' ∉ repo)
    (hOh : '#' ∉ owner) (hRh : '#' ∉ repo) (hBh : '#' ∉ b)
    (hBs : '/' ∉ b) :
    convert_github_path_to_raw_url fetch (owner ++ '/' :: repo ++ '@' :: b)
      = (.error (.valueError "No file path specified".toList), 0) := by
  have h1 : '#' ∉ owner ++ '/' :: repo ++ '@' :: b :=
    not_mem_append_cons (not_mem_append_cons hOh (by decide) hRh) (by decide) hBh
  have e1 := pySplitFirst_of_not_mem _ '#' h1
  have h2 : '@' ∉ owner ++ '/' :: repo := not_mem_append_cons hOa (by decide) hRa
  have e2 := pySplitFirst_append (owner ++ '/' :: repo) b '@' h2
  have e3 := pyStripChar_two_seg owner repo hO hR hOs hRs
  have e4 := pySplitAll_two_seg owner repo hOs hRs
  simp only [convert_github_path_to_raw_url, e1, e2, e3, e4]
  simp [hBs]

theorem C6_branch_without_file_path_fails_witness :
    convert_github_path_to_raw_url (fun _ _ => .success "main".toList)
        ("owner".toList ++ '/' :: "repo".toList ++ '@' :: "branch".toList)
      = (.error (.valueError "No file path specified".toList), 0) :=
  C6_branch_without_file_path_fails _ _ _ _
    (by decide) (by decide) (by decide) (by decide) (by decide)
    (by decide) (by decide) (by decide) (by decide) (by decide)

theorem convert_suffix_error_explicit_path
    (fetch : List Char → List Char → HttpResponse)
    (owner repo branch fp : List Char)
    (hO : owner ≠ []) (hR : repo ≠ [])
    (hOs : '/' ∉ owner) (hRs : '/' ∉ repo)
    (hOa : '@' ∉ owner) (hRa : '@' ∉ repo)
    (hOh : '#' ∉ owner) (hRh : '#' ∉ repo) (hBh : '#' ∉ branch)
    (hfp : ".ipynb".toList.isSuffixOf fp = false) :
    convert_github_path_to_raw_url fetch
        (owner ++ '/' :: repo ++ '@' :: branch ++ '#' :: fp)
      = (.error (.valueError "Path must end with .ipynb".toList), 0) := by
  have h1 : '#' ∉ owner ++ '/' :: repo ++ '@' :: branch :=
    not_mem_append_cons (not_mem_append_cons hOh (by decide) hRh) (by decide) hBh
  have e1 := pySplitFirst_append (owner ++ '/' :: repo ++ '@' :: branch) fp '#' h1
  have h2 : '@' ∉ owner ++ '/' :: repo := not_mem_append_cons hOa (by decide) hRa
  have e2 := pySplitFirst_append (owner ++ '/' :: repo) branch '@' h2
  have e3 := pyStripChar_two_seg owner repo hO hR hOs hRs
  have e4 := pySplitAll_two_seg owner repo hOs hRs
  have hfp' : (['.', 'i', 'p', 'y', 'n', 'b'] : List Char).isSuffixOf fp = false := by
    simpa using hfp
  simp only [convert_github_path_to_raw_url, e1, e2, e3, e4]
  simp [hfp']

theorem convert_suffix_error_fallback_path
    (fetch : List Char → List Char → HttpResponse)
    (owner repo b p : List Char)
    (hO : owner ≠ []) (hR : repo ≠ [])
    (hOs : '/' ∉ owner) (hRs : '/' ∉ repo)
    (hOa : '@' ∉ owner) (hRa : '@' ∉ repo)
    (hOh : '#' ∉ owner) (hRh : '#' ∉ repo) (hBh : '#' ∉ b) (hPh : '#' ∉ p)
    (hBs : '/' ∉ b)
    (hfp : ".ipynb".toList.isSuffixOf p = false) :
    convert_github_path_to_raw_url fetch
        (owner ++ '/' :: repo ++ '@' :: (b ++ '/' :: p))
      = (.error (.valueError "Path must end with .ipynb".toList), 0) := by
  have h1 : '#' ∉ owner ++ '/' :: repo ++ '@' :: (b ++ '/' :: p) :=
    not_mem_append_cons (not_mem_append_cons hOh (by decide) hRh) (by decide)
      (not_mem_append_cons hBh (by decide) hPh)
  have e1 := pySplitFirst_of_not_mem _ '#' h1
  have h2 : '@' ∉ owner ++ '/' :: repo := not_mem_append_cons hOa (by decide) hRa
  have e2 := pySplitFirst_append (owner ++ '/' :: repo) (b ++ '/' :: p) '@' h2
  have e3 := pyStripChar_two_seg owner repo hO hR hOs hRs
  have e4 := pySplitAll_two_seg owner repo hOs hRs
  have hm : '/' ∈ b ++ '/' :: p := by simp
  have e5 := pySplitFirst_append b p '/' hBs
  have hfp' : (['.', 'i', 'p', 'y', 'n', 'b'] : List Char).isSuffixOf p = false := by
    simpa using hfp
  simp only [convert_github_path_to_raw_url, e1, e2, e3, e4]
  simp [hm, e5, hfp']

/-- Claim C7: a resolved file path that does not end in `.ipynb` yields the
suffix error `Path must end with .ipynb`; the first conjunct covers an
explicit `#path` (e.g. `owner/repo@branch#path/notebook.txt`), the second
shows the check runs after the step-5 fallback split of an `@branch/path`
form: there the checked path is the part after the first `/` of the branch
string, and the suffix error (not "No file path specified") results. -/
theorem C7_suffix_error_checked_after_fallback :
    (∀ (fetch : List Char → List Char → HttpResponse)
        (owner repo branch fp : List Char),
      owner ≠ [] → repo ≠ [] →
      '/' ∉ owner → '/' ∉ repo → '@' ∉ owner → '@' ∉ repo →
      '#' ∉ owner → '#' ∉ repo → '#' ∉ branch →
      ".ipynb".toList.isSuffixOf fp = false →
      convert_github_path_to_raw_url fetch
          (owner ++ '/' :: repo ++ '@' :: branch ++ '#' :: fp)
        = (.error (.valueError "Path must end with .ipynb".toList), 0)) ∧
    (∀ (fetch : List Char → List Char → HttpResponse)
        (owner repo b p : List Char),
      owner ≠ [] → repo ≠ [] →
      '/' ∉ owner → '/' ∉ repo → '@' ∉ owner → '@' ∉ repo →
      '#' ∉ owner → '#' ∉ repo → '#' ∉ b → '#' ∉ p → '/' ∉ b →
      ".ipynb".toList.isSuffixOf p = false →
      convert_github_path_to_raw_url fetch
          (owner ++ '/' :: repo ++ '@' :: (b ++ '/' :: p))
        = (.error (.valueError "Path must end with .ipynb".toList), 0)) :=
  ⟨convert_suffix_error_explicit_path, convert_suffix_error_fallback_path⟩

theorem C7_suffix_error_checked_after_fallback_witness :
    convert_github_path_to_raw_url (fun _ _ => .success "main".toList)
        ("owner".toList ++ '/' :: "repo".toList ++ '@' :: "branch".toList
          ++ '#' :: "path/notebook.txt".toList)
      = (.error (.valueError "Path must end with .ipynb".toList), 0) ∧
    convert_github_path_to_raw_url (fun _ _ => .success "main".toList)
        ("owner".toList ++ '/' :: "repo".toList ++ '@'
          :: ("branch".toList ++ '/' :: "notebook.txt".toList))
      = (.error (.valueError "Path must end with .ipynb".toList), 0) :=
  ⟨C7_suffix_error_checked_after_fallback.1 _ _ _ _ _
      (by decide) (by decide) (by decide) (by decide) (by decide)
      (by decide) (by decide) (by decide) (by decide) (by decide),
    C7_suffix_error_checked_after_fallback.2 _ _ _ _ _
      (by decide) (by decide) (by decide) (by decide) (by decide) (by decide)
      (by decide) (by decide) (by decide) (by decide) (by decide) (by decide)⟩

/-! ### Claims about the default-branch lookup and the orchestrator -/

/-- Claim C8: the default-branch lookup returns the `default_branch` field
of the metadata response on success; a 404 becomes a not-found `ValueError`
naming `owner/repo`; any other HTTP error propagates unchanged. -/
theorem C8_default_branch_lookup_error_policy
    (fetch : List Char → List Char → HttpResponse) (owner repo : List Char) :
    (∀ b, fetch owner repo = .success b →
        get_default_branch fetch owner repo = .ok b) ∧
    (fetch owner repo = .httpError 404 →
        get_default_branch fetch owner repo = .error (.valueError
          ("Repository ".toList ++ owner ++ "/".toList ++ repo
            ++ " not found".toList))) ∧
    (∀ code, code ≠ 404 → fetch owner repo = .httpError code →
        get_default_branch fetch owner repo = .error (.httpError code)) := by
  refine ⟨?_, ?_, ?_⟩
  · intro b hb; simp [get_default_branch, hb]
  · intro hb; simp [get_default_branch, hb]
  · intro code hc hb; simp [get_default_branch, hb, hc]

theorem C8_default_branch_lookup_error_policy_witness :
    get_default_branch (fun _ _ => .success "main".toList) "o".toList "r".toList
      = .ok "main".toList ∧
    get_default_branch (fun _ _ => .httpError 404) "o".toList "r".toList
      = .error (.valueError "Repository o/r not found".toList) ∧
    get_default_branch (fun _ _ => .httpError 500) "o".toList "r".toList
      = .error (.httpError 500) := by
  refine ⟨?_, ?_, ?_⟩
  · exact (C8_default_branch_lookup_error_policy
      (fun _ _ => .success "main".toList) "o".toList "r".toList).1 _ rfl
  · have := (C8_default_branch_lookup_error_policy
      (fun _ _ => .httpError 404) "o".toList "r".toList).2.1 rfl
    simpa using this
  · exact (C8_default_branch_lookup_error_policy
      (fun _ _ => .httpError 500) "o".toList "r".toList).2.2 500 (by decide) rfl

/-- Claim C9: whenever the orchestrator succeeds, the trace is exactly one
download of the resolved URL to `<output_dir or cwd>/<filename>` (filename
taken from the URL's parsed path component) followed by exactly one viewer
spawn `jupyter notebook <target> <jupyter_args...>` with the pass-through
arguments in their original order; a reference that already starts with
`http://` or `https://` bypasses the shorthand resolver (it is downloaded
as given, with zero lookup calls). -/
theorem C9_download_target_and_single_spawn
    (fetch : List Char → List Char → HttpResponse)
    (cwd ref : List Char) (outDir : Option (List Char)) (args : List (List Char))
    (events : List Event) (n : Nat)
    (h : open_notebook_from_url fetch cwd ref outDir args = (.ok events, n)) :
    ∃ url,
      ((startsWithHttp ref = true ∧ url = ref ∧ n = 0) ∨
       (startsWithHttp ref = false ∧
         convert_github_path_to_raw_url fetch ref = (.ok url, n))) ∧
      events = [Event.download url (outDir.getD cwd ++ '/' :: pathName (urlparsePath url)),
        Event.spawn ("jupyter".toList :: "notebook".toList ::
          (outDir.getD cwd ++ '/' :: pathName (urlparsePath url)) :: args)] := by
  simp only [open_notebook_from_url] at h
  cases hs : startsWithHttp ref with
  | true =>
    rw [hs] at h
    simp only [if_true] at h
    split at h
    · simp only [Prod.mk.injEq, Except.ok.injEq] at h
      exact ⟨ref, Or.inl ⟨rfl, rfl, h.2.symm⟩, h.1.symm⟩
    · simp at h
  | false =>
    rw [hs] at h
    simp only [Bool.false_eq_true, if_false] at h
    cases hc : (convert_github_path_to_raw_url fetch ref).1 with
    | error e =>
      rw [hc] at h
      simp at h
    | ok url =>
      rw [hc] at h
      dsimp only at h
      split at h
      · simp only [Prod.mk.injEq, Except.ok.injEq] at h
        refine ⟨url, Or.inr ⟨rfl, ?_⟩, h.1.symm⟩
        rw [Prod.ext_iff]
        exact ⟨hc, h.2⟩
      · simp at h

theorem C9_download_target_and_single_spawn_witness :
    ∃ url,
      ((startsWithHttp "https://example.com/notebook.ipynb".toList = true ∧
          url = "https://example.com/notebook.ipynb".toList ∧ (0 : Nat) = 0) ∨
       (startsWithHttp "https://example.com/notebook.ipynb".toList = false ∧
          convert_github_path_to_raw_url (fun _ _ => .success "main".toList)
            "https://example.com/notebook.ipynb".toList = (.ok url, 0))) ∧
      ([Event.download "https://example.com/notebook.ipynb".toList
          "/w/notebook.ipynb".toList,
        Event.spawn ["jupyter".toList, "notebook".toList, "/w/notebook.ipynb".toList,
          "--port".toList, "8888".toList]] : List Event)
        = [Event.download url ((Option.getD none "/w".toList)
              ++ '/' :: pathName (urlparsePath url)),
           Event.spawn ("jupyter".toList :: "notebook".toList ::
             ((Option.getD none "/w".toList) ++ '/' :: pathName (urlparsePath url))
             :: ["--port".toList, "8888".toList])] :=
  C9_download_target_and_single_spawn (fun _ _ => .success "main".toList)
    "/w".toList "https://example.com/notebook.ipynb".toList none
    ["--port".toList, "8888".toList]
    [Event.download "https://example.com/notebook.ipynb".toList
       "/w/notebook.ipynb".toList,
     Event.spawn ["jupyter".toList, "notebook".toList, "/w/notebook.ipynb".toList,
       "--port".toList, "8888".toList]] 0 rfl

theorem suffix_lastSlashSegment (s l : List Char)
    (hs : ∀ x ∈ s, x ≠ '/') (h : s <:+ l) : s <:+ lastSlashSegment l := by
  obtain ⟨t, rfl⟩ := h
  unfold lastSlashSegment
  rw [List.reverse_append, List.takeWhile_append_of_pos, List.reverse_append,
    List.reverse_reverse]
  · exact ⟨_, rfl⟩
  · intro a ha
    rw [List.mem_reverse] at ha
    simpa using hs a ha

theorem convert_ok_shape (fetch : List Char → List Char → HttpResponse)
    (path url : List Char) (n : Nat)
    (h : convert_github_path_to_raw_url fetch path = (.ok url, n)) :
    ∃ owner repo branch fp,
      ".ipynb".toList.isSuffixOf fp = true ∧ url = rawUrl owner repo branch fp := by
  simp only [convert_github_path_to_raw_url] at h
  repeat' split at h
  all_goals simp only [Prod.mk.injEq, Except.ok.injEq, reduceCtorEq, false_and] at h
  all_goals
    obtain ⟨h1, h2⟩ := h
    subst h1
    exact ⟨_, _, _, _, by assumption, rfl⟩

/-- Claim C10 (counterexample): the claim asserts that the orchestrator's
suffix check on the extracted filename cannot fail for a resolver-produced
URL, being reachable only for user-supplied absolute URLs.  It can fail: on
`o/r@b#a#x.ipynb` the resolver succeeds (the file path `a#x.ipynb`, the part
after the *first* `#`, ends in `.ipynb`), but the produced URL
`https://raw.githubusercontent.com/o/r/b/a#x.ipynb` is then parsed by
`urlparse`, which treats `#x.ipynb` as a fragment; the extracted filename is
`a`, and the orchestrator fails with the suffix error. -/
theorem C10_orchestrator_check_fails_on_resolver_url :
    (convert_github_path_to_raw_url (fun _ _ => .success "main".toList)
        "o/r@b#a#x.ipynb".toList).1
      = .ok "https://raw.githubusercontent.com/o/r/b/a#x.ipynb".toList ∧
    (open_notebook_from_url (fun _ _ => .success "main".toList) "/w".toList
        "o/r@b#a#x.ipynb".toList none []).1
      = .error (.valueError
          "URL must point to a Jupyter notebook (.ipynb file)".toList) :=
  ⟨rfl, rfl⟩

/-- Claim C10 (amended): whenever the shorthand resolver returns a URL
successfully, the final `/`-separated segment of that URL ends with
`.ipynb`.  (The original claim's further consequence — that the
orchestrator's own suffix check can then never fail on a resolver-produced
URL — is false, because the orchestrator re-parses the URL with `urlparse`,
which strips `#`-fragments, `?`-queries and `;`-params from the file path
before the filename is extracted; see the counterexample.) -/
theorem C10_resolver_url_final_segment_ipynb
    (fetch : List Char → List Char → HttpResponse)
    (path url : List Char) (n : Nat)
    (h : convert_github_path_to_raw_url fetch path = (.ok url, n)) :
    ".ipynb".toList.isSuffixOf (lastSlashSegment url) = true := by
  obtain ⟨o, r, b, fp, hsuf, rfl⟩ := convert_ok_shape fetch path url n h
  rw [List.isSuffixOf_iff_suffix] at hsuf ⊢
  apply suffix_lastSlashSegment
  · decide
  · have h2 : fp <:+ rawUrl o r b fp := by
      unfold rawUrl
      exact (List.suffix_cons '/' fp).trans (List.suffix_append _ _)
    exact hsuf.trans h2

theorem C10_resolver_url_final_segment_ipynb_witness :
    convert_github_path_to_raw_url (fun _ _ => .success "main".toList)
        "o/r@b#nb.ipynb".toList
      = (.ok "https://raw.githubusercontent.com/o/r/b/nb.ipynb".toList, 0) ∧
    ".ipynb".toList.isSuffixOf
        (lastSlashSegment "https://raw.githubusercontent.com/o/r/b/nb.ipynb".toList)
      = true :=
  ⟨rfl, C10_resolver_url_final_segment_ipynb
      (fun _ _ => .success "main".toList) "o/r@b#nb.ipynb".toList _ 0 rfl⟩
